import Mathlib

/-!
A shallow embedding of the Git history analyzer
(`src/rust_core/src/git_analyzer.rs`) and proofs about it.

Modelling conventions:
* Rust strings (`String` / `&str`) are modelled as `List Char` (`Str`), so
  that every operation is structurally recursive and evaluates inside the
  kernel.  Each Rust string primitive used by the analyzer (`lines`,
  `split`, `split_whitespace`, `trim`, `parse::<usize>`, `to_lowercase`,
  `contains`, `starts_with`) is re-implemented on `Str` with the same
  semantics on the ASCII fragment the analyzer manipulates.
* Machine integers (`usize`, `i64`) are modelled as `Nat` / `Int`; overflow
  does not matter for any property proved here (the analyzer only adds
  counts produced by parsing version-control output).
* `f64` values are modelled as exact rationals (`ℚ`); the analyzer only
  divides by provably non-zero divisors and compares against integral
  thresholds, so rounding is irrelevant to the proved properties.
* The outside world (the `git` subprocess, the filesystem, the clock) is a
  record `GitEnv` passed explicitly: `git` maps an argument list to the
  captured stdout or to the stderr-derived error (`execute_git_command`),
  `pathExists` models `Path::exists`, `sinceDate d` models
  `(Local::now() - Duration::days d).format("%Y-%m-%d")` and `nowLocal`
  models `Local::now().naive_local()`.
* Rust `HashMap` accumulation via `entry(k).or_insert(v)` is modelled as an
  association list keyed in first-insertion order; the proofs never depend
  on the iteration order beyond what the Rust code guarantees.
* Rust's stable `sort_by` is modelled by Mathlib's stable insertion sort.
-/

/-! ## Rust string primitives on `Str` -/

/-- Rust strings are modelled as lists of characters. -/
abbrev Str := List Char

/-- Convert a Lean string literal to the `Str` model. -/
def strLit (s : String) : Str := s.data

/-- Model of Rust `char::is_whitespace` on the ASCII range. -/
def isWsChar (c : Char) : Bool :=
  c = ' ' || c = '\t' || c = '\n' || c = '\r' || c = '\x0b' || c = '\x0c'

/-- Model of Rust `str::split(p)` for a character predicate: splits at every
matching character, keeping empty pieces (so `""` gives `[""]`). -/
def splitPred (p : Char → Bool) : Str → List Str
  | [] => [[]]
  | c :: cs =>
    let r := splitPred p cs
    if p c then [] :: r
    else
      match r with
      | [] => [[c]]
      | w :: ws => (c :: w) :: ws

/-- Model of Rust `str::split(sep)` for a single separator character. -/
def splitChar (sep : Char) (s : Str) : List Str :=
  splitPred (fun c => c = sep) s

/-- Model of Rust `str::split_whitespace`: split at whitespace and drop the
empty pieces. -/
def splitWs (s : Str) : List Str :=
  (splitPred isWsChar s).filter (fun w => !w.isEmpty)

/-- Model of Rust `str::lines`: split at `'\n'`, drop one final empty piece
(produced by a trailing newline), and strip one trailing `'\r'` per line. -/
def rustLines (s : Str) : List Str :=
  let parts := splitChar '\n' s
  let parts := if parts.getLast? = some [] then parts.dropLast else parts
  parts.map (fun l => if l.getLast? = some '\r' then l.dropLast else l)

/-- Model of Rust `str::trim` (ASCII whitespace). -/
def trimStr (s : Str) : Str :=
  ((s.dropWhile isWsChar).reverse.dropWhile isWsChar).reverse

/-- Model of `line.starts_with(|c: char| c.is_numeric())` (ASCII digits). -/
def startsWithNumeric (s : Str) : Bool :=
  match s with
  | [] => false
  | c :: _ => c.isDigit

/-- Model of Rust `str::contains(c)` for a single character. -/
def containsChar (s : Str) (c : Char) : Bool := s.any (fun d => d = c)

/-- Whether `pat` occurs at the head of `s`. -/
def isPre (pat s : Str) : Bool :=
  match pat, s with
  | [], _ => true
  | _ :: _, [] => false
  | p :: ps, c :: cs => p = c && isPre ps cs

/-- Model of Rust `str::contains(pat)` for a substring pattern. -/
def containsSub (s pat : Str) : Bool :=
  match s with
  | [] => isPre pat []
  | _ :: cs => isPre pat s || containsSub cs pat

/-- Model of Rust `char::to_lowercase` on the ASCII range. -/
def lowerChar (c : Char) : Char :=
  if 'A' ≤ c && c ≤ 'Z' then Char.ofNat (c.toNat + 32) else c

/-- Model of Rust `str::to_lowercase` on the ASCII range. -/
def lowerStr (s : Str) : Str := s.map lowerChar

/-- Decimal digits to a natural number. -/
def digitsToNat (s : Str) : Nat :=
  s.foldl (fun n c => n * 10 + (c.toNat - 48)) 0

/-- Model of Rust `str::parse::<usize>()`: an optional leading `'+'`
followed by at least one ASCII digit; anything else fails. -/
def parseUsize (s : Str) : Option Nat :=
  let body := match s with
    | '+' :: rest => rest
    | _ => s
  if !body.isEmpty && body.all Char.isDigit then some (digitsToNat body)
  else none

/-- Join pieces with a separator (Rust `[..].join(sep)`). -/
def joinSep (sep : Str) : List Str → Str
  | [] => []
  | [w] => w
  | w :: ws => w ++ sep ++ joinSep sep ws

/-- Model of the recurring Rust idiom
`s.split_whitespace().take(2).collect::<Vec<_>>().join(" ")` used to strip
the timezone column from an ISO timestamp before parsing it. -/
def firstTwoTokens (s : Str) : Str :=
  joinSep (strLit " ") ((splitWs s).take 2)

/-! ## Dates: a model of the `chrono` fragment the analyzer uses -/

/-- Model of `chrono::NaiveDateTime` (seconds precision; the analyzer never
reads sub-second fields). -/
structure NaiveDT where
  year : Int
  month : Nat
  day : Nat
  hour : Nat
  minute : Nat
  second : Nat
deriving DecidableEq, Repr

/-- Proleptic-Gregorian leap-year rule. -/
def isLeapYear (y : Int) : Bool :=
  (y % 4 = 0 && y % 100 ≠ 0) || y % 400 = 0

/-- Days in a month of a given year. -/
def daysInMonth (y : Int) (m : Nat) : Nat :=
  if m = 2 then (if isLeapYear y then 29 else 28)
  else if m = 4 || m = 6 || m = 9 || m = 11 then 30
  else 31

/-- All-digit field helper for timestamp parsing. -/
def parseDigits (s : Str) : Option Nat :=
  if !s.isEmpty && s.all Char.isDigit then some (digitsToNat s) else none

/-- Model of `chrono::NaiveDateTime::parse_from_str _ "%Y-%m-%d %H:%M:%S"`
restricted to non-negative years (the only timestamps the analyzer meets):
the text must be `year-month-day hour:minute:second` with numeric fields in
range; `%S` accepts `60` for a leap second, as chrono does. -/
def parseNDT (s : Str) : Option NaiveDT :=
  match splitChar ' ' s with
  | [d, t] =>
    match splitChar '-' d, splitChar ':' t with
    | [ys, ms, ds], [hs, mis, ss] => do
      let y ← parseDigits ys
      let mo ← parseDigits ms
      let da ← parseDigits ds
      let h ← parseDigits hs
      let mi ← parseDigits mis
      let se ← parseDigits ss
      if 1 ≤ mo ∧ mo ≤ 12 ∧ 1 ≤ da ∧ da ≤ daysInMonth (y : Int) mo ∧
          h ≤ 23 ∧ mi ≤ 59 ∧ se ≤ 60 then
        some ⟨(y : Int), mo, da, h, mi, se⟩
      else none
    | _, _ => none
  | _ => none

/-- Days since 1970-01-01 of a civil date (Hinnant's `days_from_civil`;
all divisions below act on non-negative operands for the years that
`parseNDT` can produce, so the division convention is irrelevant). -/
def daysFromCivil (dt : NaiveDT) : Int :=
  let y : Int := if dt.month ≤ 2 then dt.year - 1 else dt.year
  let era : Int := (if 0 ≤ y then y else y - 399).tdiv 400
  let yoe : Int := y - era * 400
  let mp : Int := if 2 < dt.month then (dt.month : Int) - 3 else (dt.month : Int) + 9
  let doy : Int := (153 * mp + 2).tdiv 5 + (dt.day : Int) - 1
  let doe : Int := yoe * 365 + yoe.tdiv 4 - yoe.tdiv 100 + doy
  era * 146097 + doe - 719468

/-- Seconds since the epoch of a `NaiveDT`. -/
def toSecs (dt : NaiveDT) : Int :=
  daysFromCivil dt * 86400 + (dt.hour : Int) * 3600 + (dt.minute : Int) * 60 + (dt.second : Int)

/-- Model of `(a - b).num_days()` on `chrono` values: the signed difference
in whole days, truncated toward zero as `chrono::Duration::num_days` does. -/
def numDaysBetween (a b : NaiveDT) : Int :=
  (toSecs a - toSecs b).tdiv 86400

/-- Weekday names as produced by `chrono`'s `%A` format. -/
def weekdayName (dt : NaiveDT) : Str :=
  [strLit "Sunday", strLit "Monday", strLit "Tuesday", strLit "Wednesday",
   strLit "Thursday", strLit "Friday", strLit "Saturday"].getD
    ((daysFromCivil dt + 4).emod 7).toNat []

/-! ## Data model (`git_analyzer.rs` structs) -/

/-- `CommitInfo` from the source. -/
structure CommitInfo where
  hash : Str
  author : Str
  email : Str
  date : Str
  message : Str
  files_changed : Nat
  insertions : Nat
  deletions : Nat
deriving DecidableEq, Repr

/-- `CommitHistory` from the source; the two `HashMap`s are modelled as
association lists in first-insertion order. -/
structure CommitHistory where
  recent_commits : List CommitInfo
  commits_by_month : List (Str × Nat)
  commits_by_day_of_week : List (Str × Nat)
  average_commits_per_week : ℚ
deriving DecidableEq, Repr

/-- `BranchInfo` from the source. -/
structure BranchInfo where
  name : Str
  last_commit_date : Str
  commits_ahead : Nat
  commits_behind : Nat
  is_merged : Bool
deriving DecidableEq, Repr

/-- `BranchAnalysis` from the source. -/
structure BranchAnalysis where
  total_branches : Nat
  active_branches : List BranchInfo
  stale_branches : List BranchInfo
  merged_branches_count : Nat
deriving DecidableEq, Repr

/-- `ContributorInsight` from the source. -/
structure ContributorInsight where
  name : Str
  email : Str
  total_commits : Nat
  first_commit_date : Str
  last_commit_date : Str
  lines_added : Nat
  lines_deleted : Nat
  files_modified : Nat
  impact_score : ℚ
deriving DecidableEq, Repr

/-- `FileChurn` from the source. -/
structure FileChurn where
  path : Str
  times_changed : Nat
  total_insertions : Nat
  total_deletions : Nat
  last_modified : Str
deriving DecidableEq, Repr

/-- `CodeChurn` from the source. -/
structure CodeChurn where
  most_changed_files : List FileChurn
  total_files_ever_changed : Nat
  hotspots : List Str
deriving DecidableEq, Repr

/-- `DevelopmentPatterns` from the source. -/
structure DevelopmentPatterns where
  commit_frequency : Str
  peak_development_hours : List Nat
  peak_development_days : List Str
  average_commit_size : ℚ
  median_commit_size : Nat
deriving DecidableEq, Repr

/-- `ArchitecturalDecision` from the source. -/
structure ArchitecturalDecision where
  commit_hash : Str
  date : Str
  author : Str
  message : Str
  decision_type : Str
  impact : Str
deriving DecidableEq, Repr

/-- `TagInfo` from the source. -/
structure TagInfo where
  name : Str
  date : Str
  commit_hash : Str
  message : Str
deriving DecidableEq, Repr

/-- `ReleasePatterns` from the source. -/
structure ReleasePatterns where
  total_tags : Nat
  recent_tags : List TagInfo
  average_days_between_releases : ℚ
  release_frequency : Str
deriving DecidableEq, Repr

/-- `RepositoryInfo` from the source. -/
structure RepositoryInfo where
  path : Str
  remote_url : Option Str
  default_branch : Str
  total_commits : Nat
  first_commit_date : Str
  last_commit_date : Str
  repository_age_days : Int
deriving DecidableEq, Repr

/-- `GitAnalysis` from the source: the aggregate report. -/
structure GitAnalysis where
  repository_info : RepositoryInfo
  commit_history : CommitHistory
  branch_analysis : BranchAnalysis
  contributor_insights : List ContributorInsight
  code_churn : CodeChurn
  development_patterns : DevelopmentPatterns
  architectural_decisions : List ArchitecturalDecision
  release_patterns : ReleasePatterns
deriving DecidableEq, Repr

/-! ## The outside world -/

/-- The environment the analyzer runs in.  `git args` is the outcome of
`execute_git_command` for the fixed repository under analysis: `.ok stdout`
when the subprocess exits successfully, `.error stderr` otherwise. -/
structure GitEnv where
  git : List Str → Except Str Str
  pathExists : Str → Bool
  sinceDate : Int → Str
  nowLocal : NaiveDT

/-! Argument lists of every `git` invocation in the source, in the order the
source builds them. -/

/-- `git log --since=.. --format=%H|%an|%ae|%ai|%s --numstat` (commit history). -/
def historyArgs (since : Str) : List Str :=
  [strLit "log", strLit "--since=" ++ since,
   strLit "--format=%H|%an|%ae|%ai|%s", strLit "--numstat"]

/-- `git log --since=.. --format=%aN|%aE` (contributor pass 1). -/
def insightArgs (since : Str) : List Str :=
  [strLit "log", strLit "--since=" ++ since, strLit "--format=%aN|%aE"]

/-- `git log --author=.. --since=.. --numstat --format=%ai` (contributor pass 2). -/
def contribStatsArgs (email since : Str) : List Str :=
  [strLit "log", strLit "--author=" ++ email, strLit "--since=" ++ since,
   strLit "--numstat", strLit "--format=%ai"]

/-- `git log --since=.. --numstat --format=` (code churn). -/
def churnArgs (since : Str) : List Str :=
  [strLit "log", strLit "--since=" ++ since, strLit "--numstat", strLit "--format="]

/-- `git log --since=.. --grep=kw -i --format=%H|%ai|%an|%s` (decisions). -/
def archArgs (since kw : Str) : List Str :=
  [strLit "log", strLit "--since=" ++ since, strLit "--grep=" ++ kw,
   strLit "-i", strLit "--format=%H|%ai|%an|%s"]

/-- `git branch -a --format=..` (branch analysis). -/
def branchArgs : List Str :=
  [strLit "branch", strLit "-a",
   strLit "--format=%(refname:short)|%(committerdate:iso)|%(ahead-behind:HEAD)"]

/-- `git tag -l --sort=-creatordate` (release patterns). -/
def tagListArgs : List Str :=
  [strLit "tag", strLit "-l", strLit "--sort=-creatordate"]

/-- `git show tag --format=%H|%ai|%s --no-patch` (per-tag detail). -/
def tagShowArgs (tag : Str) : List Str :=
  [strLit "show", tag, strLit "--format=%H|%ai|%s", strLit "--no-patch"]

/-- `git rev-parse --abbrev-ref HEAD`. -/
def revParseArgs : List Str :=
  [strLit "rev-parse", strLit "--abbrev-ref", strLit "HEAD"]

/-- `git config --get remote.origin.url`. -/
def remoteUrlArgs : List Str :=
  [strLit "config", strLit "--get", strLit "remote.origin.url"]

/-- `git rev-list --count HEAD`. -/
def revListCountArgs : List Str :=
  [strLit "rev-list", strLit "--count", strLit "HEAD"]

/-- `git log --reverse --format=%ai --max-count=1`. -/
def firstCommitArgs : List Str :=
  [strLit "log", strLit "--reverse", strLit "--format=%ai", strLit "--max-count=1"]

/-- `git log -1 --format=%ai`. -/
def lastCommitArgs : List Str :=
  [strLit "log", strLit "-1", strLit "--format=%ai"]

/-! ## `HashMap` accumulation model -/

/-- Model of `map.entry(k).or_insert(init)` followed by an in-place update
`f` of the entry: an association list keyed in first-insertion order. -/
def updAssoc {κ α : Type} [DecidableEq κ]
    (m : List (κ × α)) (k : κ) (init : α) (f : α → α) : List (κ × α) :=
  match m with
  | [] => [(k, f init)]
  | (k0, v) :: rest =>
    if k0 = k then (k, f v) :: rest else (k0, v) :: updAssoc rest k init f

/-- Lookup in the association-list model of a `HashMap`. -/
def lookupAssoc {κ α : Type} [DecidableEq κ] : List (κ × α) → κ → Option α
  | [], _ => none
  | (k0, v) :: rest, k => if k0 = k then some v else lookupAssoc rest k

/-! ## Record parsers (`parse_git_log_with_stats` and friends) -/

/-- The fresh `CommitInfo` built from a well-formed header line
(`parts.len() >= 5` branch of the parser): the subject is
`parts[4..].join("|")`, so a subject containing `|` is not truncated. -/
def headerCommit (line : Str) : CommitInfo :=
  let parts := splitChar '|' line
  { hash := parts.getD 0 [], author := parts.getD 1 [], email := parts.getD 2 [],
    date := parts.getD 3 [], message := joinSep (strLit "|") (parts.drop 4),
    files_changed := 0, insertions := 0, deletions := 0 }

/-- Loop state of `parse_git_log_with_stats`: finished commits plus the
commit currently being accumulated. -/
structure LogParseState where
  commits : List CommitInfo
  current : Option CommitInfo
deriving DecidableEq, Repr

/-- `line.contains('|') && !line.starts_with(|c| c.is_numeric())`: how the
parser tells a header line from a stat line. -/
def isHeaderLine (line : Str) : Bool :=
  containsChar line '|' && !startsWithNumeric line

/-- One iteration of the `parse_git_log_with_stats` loop. -/
def logStep (st : LogParseState) (line : Str) : LogParseState :=
  if isHeaderLine line then
    let commits :=
      match st.current with
      | some c => st.commits ++ [c]
      | none => st.commits
    if 5 ≤ (splitChar '|' line).length then
      { commits := commits, current := some (headerCommit line) }
    else
      { commits := commits, current := none }
  else
    match st.current with
    | some c =>
      let parts := splitWs line
      if 3 ≤ parts.length then
        match parseUsize (parts.getD 0 []), parseUsize (parts.getD 1 []) with
        | some ins, some del =>
          { st with current := some { c with
              insertions := c.insertions + ins,
              deletions := c.deletions + del,
              files_changed := c.files_changed + 1 } }
        | _, _ => st
      else st
    | none => st

/-- `parse_git_log_with_stats` on a list of lines: fold the loop body and
flush the trailing commit. -/
def parseLogLines (ls : List Str) : List CommitInfo :=
  let st := ls.foldl logStep ⟨[], none⟩
  match st.current with
  | some c => st.commits ++ [c]
  | none => st.commits

/-- `parse_git_log_with_stats` from the source. -/
def parse_git_log_with_stats (log_output : Str) : List CommitInfo :=
  parseLogLines (rustLines log_output)

/-- `parse_branch_info` from the source: a pipe-delimited
`name|iso-date|ahead-behind` record; the ahead/behind pair is split at the
first whitespace character and unparseable counts default to `0`. -/
def parse_branch_info (line : Str) : Option BranchInfo :=
  let parts := splitChar '|' line
  if parts.length < 3 then none
  else
    let ahead_behind := trimStr (parts.getD 2 [])
    let ab :=
      match ahead_behind.findIdx? (fun c => isWsChar c || c = '\t') with
      | some i => ((parseUsize (ahead_behind.take i)).getD 0,
                   (parseUsize (ahead_behind.drop (i + 1))).getD 0)
      | none => (0, 0)
    some { name := trimStr (parts.getD 0 []), last_commit_date := trimStr (parts.getD 1 []),
           commits_ahead := ab.1, commits_behind := ab.2, is_merged := false }

/-- `is_branch_active` from the source: parse the first two tokens of the
timestamp and compare the age in whole days against the threshold; an
unparseable timestamp counts as inactive. -/
def is_branch_active (now : NaiveDT) (last_commit_date : Str) (days : Int) : Bool :=
  match parseNDT (firstTwoTokens last_commit_date) with
  | some date => decide (numDaysBetween now date ≤ days)
  | none => false

/-- `parse_architectural_decision` from the source.  Note the subject is
`parts[3]` alone (a subject containing `|` is truncated here, unlike in the
commit parser), and the impact tier looks at the lower-cased subject. -/
def parse_architectural_decision (line : Str) (keyword : Str) : Option ArchitecturalDecision :=
  let parts := splitChar '|' line
  if parts.length < 4 then none
  else
    let message := parts.getD 3 []
    let impact :=
      if containsSub (lowerStr message) (strLit "breaking")
          || containsSub (lowerStr message) (strLit "major") then strLit "high"
      else if containsSub (lowerStr message) (strLit "minor")
          || containsSub (lowerStr message) (strLit "fix") then strLit "low"
      else strLit "medium"
    some { commit_hash := parts.getD 0 [], date := parts.getD 1 [],
           author := parts.getD 2 [], message := message,
           decision_type := keyword, impact := impact }

/-- `get_tag_info` from the source: one `git show` per tag; a failing query
or a malformed first line yields `none` (the tag is dropped, not an error). -/
def get_tag_info (env : GitEnv) (tag : Str) : Option TagInfo :=
  match env.git (tagShowArgs tag) with
  | .error _ => none
  | .ok output =>
    match rustLines output with
    | [] => none
    | line :: _ =>
      let parts := splitChar '|' line
      if parts.length < 3 then none
      else some { name := tag, commit_hash := parts.getD 0 [],
                  date := parts.getD 1 [], message := parts.getD 2 [] }

/-! ## Aspect analyzers -/

/-- The divisor of the average-commits-per-week computation:
`(days as f64 / 7.0).max(1.0)`. -/
def weeksDivisor (days : Int) : ℚ := max ((days : ℚ) / 7) 1

/-- `get_commit_history` from the source. -/
def get_commit_history (env : GitEnv) (days : Int) : Except Str CommitHistory :=
  match env.git (historyArgs (env.sinceDate days)) with
  | .error e => .error e
  | .ok log_output =>
    let commits := parse_git_log_with_stats log_output
    let maps := commits.foldl
      (fun (ms : List (Str × Nat) × List (Str × Nat)) commit =>
        let byMonth :=
          let p := (splitChar '-' commit.date).take 2
          if 2 ≤ p.length then updAssoc ms.1 (joinSep (strLit "-") p) 0 (· + 1)
          else ms.1
        let byDay :=
          match splitWs commit.date with
          | d :: _ => updAssoc ms.2 d 0 (· + 1)
          | [] => ms.2
        (byMonth, byDay))
      ([], [])
    .ok { recent_commits := commits.take 50,
          commits_by_month := maps.1,
          commits_by_day_of_week := maps.2,
          average_commits_per_week := (commits.length : ℚ) / weeksDivisor days }

/-- `get_branch_analysis` from the source: every parsed branch is tested
against a fixed 30-day activity threshold. -/
def get_branch_analysis (env : GitEnv) : Except Str BranchAnalysis :=
  match env.git branchArgs with
  | .error e => .error e
  | .ok branches_output =>
    let branches := (rustLines branches_output).filterMap parse_branch_info
    .ok { total_branches := branches.length,
          active_branches :=
            branches.filter (fun b => is_branch_active env.nowLocal b.last_commit_date 30),
          stale_branches :=
            branches.filter (fun b => !is_branch_active env.nowLocal b.last_commit_date 30),
          merged_branches_count := (branches.filter (fun b => b.is_merged)).length }

/-- `analyze_contributor` from the source (contributor pass 2): a failing
detail query drops the contributor (`None`), it is not an error. -/
def analyze_contributor (env : GitEnv) (name email : Str) (commits_count : Nat)
    (days : Int) : Option ContributorInsight :=
  match env.git (contribStatsArgs email (env.sinceDate days)) with
  | .error _ => none
  | .ok stats_output =>
    let acc := (rustLines stats_output).foldl
      (fun (st : Nat × Nat × Nat × Str × Str) stat_line =>
        if containsChar stat_line '-' && containsChar stat_line ':' then
          let last := if st.2.2.2.2.isEmpty then stat_line else st.2.2.2.2
          (st.1, st.2.1, st.2.2.1, stat_line, last)
        else
          let stat_parts := splitWs stat_line
          if 2 ≤ stat_parts.length then
            match parseUsize (stat_parts.getD 0 []), parseUsize (stat_parts.getD 1 []) with
            | some ins, some del =>
              (st.1 + ins, st.2.1 + del, st.2.2.1 + 1, st.2.2.2.1, st.2.2.2.2)
            | _, _ => st
          else st)
      (0, 0, 0, [], [])
    some { name := name, email := email, total_commits := commits_count,
           first_commit_date := acc.2.2.2.1, last_commit_date := acc.2.2.2.2,
           lines_added := acc.1, lines_deleted := acc.2.1, files_modified := acc.2.2.1,
           impact_score := (commits_count : ℚ) * 10 + (acc.1 : ℚ) * (1 / 10)
             + (acc.2.2.1 : ℚ) * (1 / 2) }

/-- One iteration of the pass-1 loop of `get_contributor_insights`: a line
with at least two pipe-separated fields bumps the commit count of its
(trimmed) email and records the first display name seen for that email. -/
def contribStep (ms : List (Str × Nat) × List (Str × Str)) (line : Str) :
    List (Str × Nat) × List (Str × Str) :=
  let parts := splitChar '|' line
  if 2 ≤ parts.length then
    let name := trimStr (parts.getD 0 [])
    let email := trimStr (parts.getD 1 [])
    (updAssoc ms.1 email 0 (· + 1), updAssoc ms.2 email name id)
  else ms

/-- The pass-1 accumulation of `get_contributor_insights`: per-email commit
counts plus the first display name seen for each email, both keyed by the
trimmed email. -/
def contribMaps (ls : List Str) : List (Str × Nat) × List (Str × Str) :=
  ls.foldl contribStep ([], [])

/-- `get_contributor_insights` from the source: pass 1 counts commits per
email, pass 2 queries per-contributor detail and silently drops failures. -/
def get_contributor_insights (env : GitEnv) (days : Int) :
    Except Str (List ContributorInsight) :=
  match env.git (insightArgs (env.sinceDate days)) with
  | .error e => .error e
  | .ok log_output =>
    let maps := contribMaps (rustLines log_output)
    .ok (maps.1.filterMap (fun p =>
      match lookupAssoc maps.2 p.1 with
      | some name => analyze_contributor env name p.1 p.2 days
      | none => none))

/-- The per-path accumulation of `get_code_churn`: for every numstat line
with numeric insertion/deletion fields, bump the path's
(times-changed, insertions, deletions) triple. -/
def churnAccum (ls : List Str) : List (Str × Nat × Nat × Nat) :=
  ls.foldl
    (fun m line =>
      let parts := splitWs line
      if 3 ≤ parts.length then
        match parseUsize (parts.getD 0 []), parseUsize (parts.getD 1 []) with
        | some ins, some del =>
          updAssoc m (parts.getD 2 []) (0, 0, 0)
            (fun t => (t.1 + 1, t.2.1 + ins, t.2.2 + del))
        | _, _ => m
      else m)
    []

/-- `get_code_churn` from the source: accumulate per-path churn, rank
descending by times-changed (stable sort), keep the top 20, and flag the
kept files with more than 5 changes as hotspots. -/
def get_code_churn (env : GitEnv) (days : Int) : Except Str CodeChurn :=
  match env.git (churnArgs (env.sinceDate days)) with
  | .error e => .error e
  | .ok log_output =>
    let file_changes := churnAccum (rustLines log_output)
    let most_changed := List.insertionSort
      (fun a b : Str × Nat × Nat × Nat => b.2.1 ≤ a.2.1) file_changes
    let most_changed_files := (most_changed.take 20).map
      (fun p => { path := p.1, times_changed := p.2.1, total_insertions := p.2.2.1,
                  total_deletions := p.2.2.2, last_modified := ([] : Str) : FileChurn })
    .ok { most_changed_files := most_changed_files,
          total_files_ever_changed := most_changed.length,
          hotspots := (most_changed_files.filter (fun f => 5 < f.times_changed)).map
            (fun f => f.path) }

/-- One iteration of the histogram/size loop of
`analyze_development_patterns`: bump the hour-of-day and day-of-week
histograms when the commit timestamp parses, and append the commit's size
(insertions + deletions) to the running total and sample list. -/
def devStep (st : List (Nat × Nat) × List (Str × Nat) × Nat × List Nat)
    (commit : CommitInfo) : List (Nat × Nat) × List (Str × Nat) × Nat × List Nat :=
  let hd :=
    match parseNDT (firstTwoTokens commit.date) with
    | some dt => (updAssoc st.1 dt.hour 0 (· + 1),
                  updAssoc st.2.1 (weekdayName dt) 0 (· + 1))
    | none => (st.1, st.2.1)
  let size := commit.insertions + commit.deletions
  (hd.1, hd.2, st.2.2.1 + size, st.2.2.2 ++ [size])

/-- The value built by `analyze_development_patterns` (the function body
never errs): cadence label from the average-per-week figure, peak
hours/days from the parsed timestamps of the retained commits, mean and
median commit size over those commits. -/
def devPatternsVal (commit_history : CommitHistory) : DevelopmentPatterns :=
  let avg := commit_history.average_commits_per_week
  let commit_frequency :=
    if 20 < avg then strLit "Very active"
    else if 10 < avg then strLit "Active"
    else if 5 < avg then strLit "Moderate"
    else strLit "Low"
  let acc := commit_history.recent_commits.foldl devStep ([], [], 0, [])
  let hour_counts := acc.1
  let day_counts := acc.2.1
  let total_size := acc.2.2.1
  let commit_sizes := acc.2.2.2
  let peak_hours := List.insertionSort
    (fun a b : Nat => (lookupAssoc hour_counts b).getD 0 ≤ (lookupAssoc hour_counts a).getD 0)
    (hour_counts.map (fun p => p.1))
  let peak_days := List.insertionSort
    (fun a b : Str => (lookupAssoc day_counts b).getD 0 ≤ (lookupAssoc day_counts a).getD 0)
    (day_counts.map (fun p => p.1))
  let sorted_sizes := List.insertionSort (fun a b : Nat => a ≤ b) commit_sizes
  { commit_frequency := commit_frequency,
    peak_development_hours := peak_hours.take 5,
    peak_development_days := peak_days.take 3,
    average_commit_size :=
      if !commit_history.recent_commits.isEmpty then
        (total_size : ℚ) / (commit_history.recent_commits.length : ℚ)
      else 0,
    median_commit_size :=
      if !commit_sizes.isEmpty then sorted_sizes.getD (sorted_sizes.length / 2) 0
      else 0 }

/-- `analyze_development_patterns` from the source: it consumes the
already-computed commit history, issues no query, and always succeeds. -/
def analyze_development_patterns (commit_history : CommitHistory) :
    Except Str DevelopmentPatterns :=
  .ok (devPatternsVal commit_history)

/-- The fixed keyword list of `find_architectural_decisions`. -/
def archKeywords : List Str :=
  [strLit "refactor", strLit "migrate", strLit "architecture",
   strLit "deprecate", strLit "breaking", strLit "redesign"]

/-- The keyword loop of `find_architectural_decisions`: one grep query per
keyword, each appending one record per matching line; a failing query aborts
the whole aspect. -/
def archLoop (env : GitEnv) (since : Str) : List Str → Except Str (List ArchitecturalDecision)
  | [] => .ok []
  | keyword :: rest =>
    match env.git (archArgs since keyword) with
    | .error e => .error e
    | .ok log_output =>
      match archLoop env since rest with
      | .error e => .error e
      | .ok ds =>
        .ok (((rustLines log_output).filterMap
          (fun l => parse_architectural_decision l keyword)) ++ ds)

/-- `find_architectural_decisions` from the source. -/
def find_architectural_decisions (env : GitEnv) (days : Int) :
    Except Str (List ArchitecturalDecision) :=
  archLoop env (env.sinceDate days) archKeywords

/-- The tag-count classification of `analyze_release_patterns`. -/
def classifyReleaseFrequency (total_tags : Nat) : Str :=
  if 50 < total_tags then strLit "Weekly"
  else if 20 < total_tags then strLit "Monthly"
  else if 5 < total_tags then strLit "Quarterly"
  else strLit "Irregular"

/-- `analyze_release_patterns` from the source. -/
def analyze_release_patterns (env : GitEnv) : Except Str ReleasePatterns :=
  match env.git tagListArgs with
  | .error e => .error e
  | .ok tags_output =>
    let tag_names := rustLines tags_output
    let recent_tags := (tag_names.take 10).filterMap (get_tag_info env)
    let gaps := (recent_tags.zip recent_tags.tail).foldl
      (fun (acc : Int × Nat) p =>
        match parseNDT (firstTwoTokens p.1.date), parseNDT (firstTwoTokens p.2.date) with
        | some d1, some d2 => (acc.1 + ((numDaysBetween d1 d2).natAbs : Int), acc.2 + 1)
        | _, _ => acc)
      (0, 0)
    .ok { total_tags := tag_names.length,
          recent_tags := recent_tags,
          average_days_between_releases :=
            if 0 < gaps.2 then (gaps.1 : ℚ) / (gaps.2 : ℚ) else 0,
          release_frequency := classifyReleaseFrequency tag_names.length }

/-- `get_repository_info` from the source.  The remote-URL lookup is the one
call whose failure is absorbed (`.ok()` in the source): it yields `none`
instead of an error.  The source's error strings embed the underlying
parse-error display; the model keeps their fixed text. -/
def get_repository_info (env : GitEnv) (repo_path : Str) : Except Str RepositoryInfo :=
  match env.git revParseArgs with
  | .error e => .error e
  | .ok default_branch =>
    let remote_url := (env.git remoteUrlArgs).toOption
    match env.git revListCountArgs with
    | .error e => .error e
    | .ok count_out =>
      match parseUsize (trimStr count_out) with
      | none => .error (strLit "Failed to parse commit count")
      | some total_commits =>
        match env.git firstCommitArgs with
        | .error e => .error e
        | .ok first_commit =>
          match env.git lastCommitArgs with
          | .error e => .error e
          | .ok last_commit =>
            match parseNDT (firstTwoTokens (trimStr first_commit)) with
            | none => .error (strLit "Failed to parse first commit date")
            | some first_date =>
              match parseNDT (firstTwoTokens (trimStr last_commit)) with
              | none => .error (strLit "Failed to parse last commit date")
              | some last_date =>
                .ok { path := repo_path,
                      remote_url := remote_url,
                      default_branch := trimStr default_branch,
                      total_commits := total_commits,
                      first_commit_date := trimStr first_commit,
                      last_commit_date := trimStr last_commit,
                      repository_age_days := numDaysBetween last_date first_date }

/-- `analyze_git_repository` from the source: validate the path, run the
aspect analyzers (the source runs the first four under `rayon::join`; the
results are unwrapped sequentially in exactly the textual order of the
source's `?` operators, which this model reproduces), and assemble the
aggregate report only if every required aspect succeeded.
`Path::join(".git")` is modelled as appending `"/.git"`. -/
def analyze_git_repository (env : GitEnv) (repo_path : Str) (days : Int) :
    Except Str GitAnalysis :=
  if !env.pathExists repo_path then
    .error (strLit "Path does not exist: " ++ repo_path)
  else if !env.pathExists (repo_path ++ strLit "/.git") then
    .error (strLit "Not a Git repository: " ++ repo_path)
  else
    match get_commit_history env days with
    | .error e => .error e
    | .ok commit_hist =>
      match get_code_churn env days with
      | .error e => .error e
      | .ok code_churn =>
        match analyze_development_patterns commit_hist with
        | .error e => .error e
        | .ok dev_patterns =>
          match find_architectural_decisions env days with
          | .error e => .error e
          | .ok arch_decisions =>
            match analyze_release_patterns env with
            | .error e => .error e
            | .ok release_patterns =>
              match get_repository_info env repo_path with
              | .error e => .error e
              | .ok repo_info =>
                match get_branch_analysis env with
                | .error e => .error e
                | .ok branch_analysis =>
                  match get_contributor_insights env days with
                  | .error e => .error e
                  | .ok contributors =>
                    .ok { repository_info := repo_info,
                          commit_history := commit_hist,
                          branch_analysis := branch_analysis,
                          contributor_insights := contributors,
                          code_churn := code_churn,
                          development_patterns := dev_patterns,
                          architectural_decisions := arch_decisions,
                          release_patterns := release_patterns }

/-! ## Helper lemmas -/

/-- Filtering by a predicate and by its negation partitions a list. -/
theorem length_filter_partition {α : Type} (l : List α) (p : α → Bool) :
    l.length = (l.filter p).length + (l.filter (fun a => !p a)).length := by
  induction l with
  | nil => rfl
  | cons a l ih => cases h : p a <;> simp [List.filter_cons, h, ih] <;> omega

/-- A line that is not a header and whose first or second whitespace field
is not numeric leaves the parser state unchanged. -/
theorem logStep_id_of (st : LogParseState) (line : Str)
    (hhd : isHeaderLine line = false)
    (hnum : parseUsize ((splitWs line).getD 0 []) = none ∨
            parseUsize ((splitWs line).getD 1 []) = none) :
    logStep st line = st := by
  cases hcur : st.current with
  | none => simp only [logStep, hhd, Bool.false_eq_true, if_false, hcur]
  | some c =>
    by_cases hlen : 3 ≤ (splitWs line).length
    · rcases hnum with h | h
      · cases h2 : parseUsize ((splitWs line).getD 1 []) <;>
          simp only [logStep, hhd, Bool.false_eq_true, if_false, hcur, hlen,
            if_true, h, h2]
      · cases h1 : parseUsize ((splitWs line).getD 0 []) <;>
          simp only [logStep, hhd, Bool.false_eq_true, if_false, hcur, hlen,
            if_true, h, h1]
    · simp only [logStep, hhd, Bool.false_eq_true, if_false, hcur, hlen]

/-- A well-formed header line flushes the current commit and starts a new
one. -/
theorem logStep_header (st : LogParseState) (line : Str)
    (hhd : isHeaderLine line = true) (h5 : 5 ≤ (splitChar '|' line).length) :
    logStep st line =
      { commits := st.commits ++ st.current.toList,
        current := some (headerCommit line) } := by
  cases hcur : st.current <;> simp [logStep, hhd, h5, hcur]

/-- A numeric stat line adds its fields to the current commit. -/
theorem logStep_stat (st : LogParseState) (c : CommitInfo) (line : Str)
    (ins del : Nat) (hcur : st.current = some c)
    (hhd : isHeaderLine line = false) (hlen : 3 ≤ (splitWs line).length)
    (hi : parseUsize ((splitWs line).getD 0 []) = some ins)
    (hd : parseUsize ((splitWs line).getD 1 []) = some del) :
    logStep st line = { st with current := some { c with
      insertions := c.insertions + ins,
      deletions := c.deletions + del,
      files_changed := c.files_changed + 1 } } := by
  simp only [logStep, hhd, Bool.false_eq_true, if_false, hcur, hlen, if_true, hi, hd]

/-- The commit-size sample accumulated by the development-pattern loop is
exactly the per-commit insertions+deletions list, in order. -/
theorem devStep_sizes (cs : List CommitInfo)
    (st : List (Nat × Nat) × List (Str × Nat) × Nat × List Nat) :
    (cs.foldl devStep st).2.2.2
      = st.2.2.2 ++ cs.map (fun c => c.insertions + c.deletions) := by
  induction cs generalizing st with
  | nil => simp
  | cons c cs ih => rw [List.foldl_cons, ih]; simp [devStep]

/-! ## C7 -/

/-- C7: a line in stat position whose insertion or deletion field is not
numeric (for instance the binary-file marker `-\t-\tpath`) is skipped: it
leaves the parser state untouched — no `files_changed` increment, no
insertion/deletion change — and deleting it from the line stream does not
change the parse result. -/
theorem parser_skips_binary_marker (st : LogParseState) (line : Str)
    (hhd : isHeaderLine line = false)
    (hnum : parseUsize ((splitWs line).getD 0 []) = none ∨
            parseUsize ((splitWs line).getD 1 []) = none) :
    logStep st line = st ∧
    ∀ L1 L2 : List Str, parseLogLines (L1 ++ line :: L2) = parseLogLines (L1 ++ L2) := by
  refine ⟨logStep_id_of st line hhd hnum, ?_⟩
  intro L1 L2
  unfold parseLogLines
  rw [List.foldl_append, List.foldl_cons, logStep_id_of _ line hhd hnum,
    ← List.foldl_append]

/-- A commit mid-parse, used to witness the binary-marker skip. -/
def binCommit : CommitInfo :=
  { hash := strLit "abc", author := strLit "Alice", email := strLit "a@x",
    date := strLit "2024-01-01 10:00:00 +0000", message := strLit "m",
    files_changed := 1, insertions := 2, deletions := 3 }

/-- Witness for C7: the binary-file marker `-\t-\tbin.png` leaves a commit
mid-parse untouched. -/
theorem parser_skips_binary_marker_witness :
    logStep ⟨[], some binCommit⟩ (strLit "-\t-\tbin.png") = ⟨[], some binCommit⟩ :=
  (parser_skips_binary_marker ⟨[], some binCommit⟩ (strLit "-\t-\tbin.png")
    (by decide) (Or.inl (by decide))).1

/-! ## C8 -/

/-- C8: release frequency is classified solely from the total tag count by
the strict threshold chain (more than 50 tags gives Weekly; otherwise more
than 20 gives Monthly; otherwise more than 5 gives Quarterly; otherwise
Irregular), `analyze_release_patterns` applies exactly that classification
to the number of listed tags, and in particular 6 tags classify as
Quarterly and 51 tags as Weekly. -/
theorem release_frequency_classification (env : GitEnv) (out : Str)
    (hgit : env.git tagListArgs = .ok out) :
    ∃ r, analyze_release_patterns env = .ok r ∧
      r.total_tags = (rustLines out).length ∧
      r.release_frequency = classifyReleaseFrequency r.total_tags ∧
      (∀ n : Nat,
        (classifyReleaseFrequency n = strLit "Weekly" ↔ 50 < n) ∧
        (classifyReleaseFrequency n = strLit "Monthly" ↔ 20 < n ∧ n ≤ 50) ∧
        (classifyReleaseFrequency n = strLit "Quarterly" ↔ 5 < n ∧ n ≤ 20) ∧
        (classifyReleaseFrequency n = strLit "Irregular" ↔ n ≤ 5)) ∧
      classifyReleaseFrequency 6 = strLit "Quarterly" ∧
      classifyReleaseFrequency 51 = strLit "Weekly" := by
  unfold analyze_release_patterns
  rw [hgit]
  refine ⟨_, rfl, rfl, rfl, ?_, by decide, by decide⟩
  intro n
  unfold classifyReleaseFrequency
  split_ifs with hw hm hq
  · exact ⟨⟨fun _ => hw, fun _ => rfl⟩,
      ⟨fun h => absurd h (by decide), fun h => absurd hw (by omega)⟩,
      ⟨fun h => absurd h (by decide), fun h => absurd hw (by omega)⟩,
      ⟨fun h => absurd h (by decide), fun h => absurd hw (by omega)⟩⟩
  · exact ⟨⟨fun h => absurd h (by decide), fun h => absurd h hw⟩,
      ⟨fun _ => ⟨hm, by omega⟩, fun _ => rfl⟩,
      ⟨fun h => absurd h (by decide), fun h => absurd hm (by omega)⟩,
      ⟨fun h => absurd h (by decide), fun h => absurd hm (by omega)⟩⟩
  · exact ⟨⟨fun h => absurd h (by decide), fun h => absurd h hw⟩,
      ⟨fun h => absurd h (by decide), fun h => absurd h.1 hm⟩,
      ⟨fun _ => ⟨hq, by omega⟩, fun _ => rfl⟩,
      ⟨fun h => absurd h (by decide), fun h => absurd hq (by omega)⟩⟩
  · exact ⟨⟨fun h => absurd h (by decide), fun h => absurd h hw⟩,
      ⟨fun h => absurd h (by decide), fun h => absurd h.1 hm⟩,
      ⟨fun h => absurd h (by decide), fun h => absurd h.1 hq⟩,
      ⟨fun _ => by omega, fun _ => rfl⟩⟩

/-- Environment with exactly six listed tags, for the C8 witness. -/
def tagsEnvSix : GitEnv :=
  { git := fun args =>
      if args = tagListArgs then .ok (strLit "t1\nt2\nt3\nt4\nt5\nt6")
      else .ok []
  , pathExists := fun _ => true
  , sinceDate := fun _ => strLit "2024-01-01"
  , nowLocal := ⟨2024, 6, 1, 12, 0, 0⟩ }

/-- Witness for C8: on a six-tag listing the analyzer is defined, reports
6 total tags, and classifies them per the threshold chain. -/
theorem release_frequency_classification_witness :
    ∃ r, analyze_release_patterns tagsEnvSix = .ok r ∧
      r.total_tags = (rustLines (strLit "t1\nt2\nt3\nt4\nt5\nt6")).length ∧
      r.release_frequency = classifyReleaseFrequency r.total_tags ∧
      (∀ n : Nat,
        (classifyReleaseFrequency n = strLit "Weekly" ↔ 50 < n) ∧
        (classifyReleaseFrequency n = strLit "Monthly" ↔ 20 < n ∧ n ≤ 50) ∧
        (classifyReleaseFrequency n = strLit "Quarterly" ↔ 5 < n ∧ n ≤ 20) ∧
        (classifyReleaseFrequency n = strLit "Irregular" ↔ n ≤ 5)) ∧
      classifyReleaseFrequency 6 = strLit "Quarterly" ∧
      classifyReleaseFrequency 51 = strLit "Weekly" :=
  release_frequency_classification tagsEnvSix (strLit "t1\nt2\nt3\nt4\nt5\nt6") rfl

/-! ## C9 -/

/-- C9: every successfully parsed branch lands in exactly one of the active
and stale lists (membership in each is decided by `is_branch_active`
against the fixed 30-day threshold), so `total_branches` is the sum of the
two list lengths; a branch whose last-commit date fails to parse in the
`YYYY-MM-DD HH:MM:SS` shape is classified stale. -/
theorem branch_active_stale_partition (env : GitEnv) (out : Str)
    (hgit : env.git branchArgs = .ok out) :
    ∃ ba, get_branch_analysis env = .ok ba ∧
      ba.total_branches = ba.active_branches.length + ba.stale_branches.length ∧
      (∀ b, b ∈ (rustLines out).filterMap parse_branch_info →
        ((b ∈ ba.active_branches ↔
            is_branch_active env.nowLocal b.last_commit_date 30 = true) ∧
         (b ∈ ba.stale_branches ↔
            is_branch_active env.nowLocal b.last_commit_date 30 = false))) ∧
      (∀ b, b ∈ (rustLines out).filterMap parse_branch_info →
        parseNDT (firstTwoTokens b.last_commit_date) = none →
        b ∈ ba.stale_branches) := by
  unfold get_branch_analysis
  rw [hgit]
  refine ⟨_, rfl, length_filter_partition _ _, ?_, ?_⟩
  · intro b hb
    constructor
    · simp [List.mem_filter, hb]
    · simp [List.mem_filter, hb]
  · intro b hb hnone
    have hact : is_branch_active env.nowLocal b.last_commit_date 30 = false := by
      unfold is_branch_active
      rw [hnone]
    simp [List.mem_filter, hb, hact]

/-- Branch listing with one fresh branch and one whose date is garbage, for
the C9 witness. -/
def branchListingOut : Str :=
  strLit "dev|2024-05-30 10:00:00 +0200|0 1\nold|bogus-date|0 0"

/-- Environment serving `branchListingOut`, for the C9 witness. -/
def branchEnvW : GitEnv :=
  { git := fun args => if args = branchArgs then .ok branchListingOut else .ok []
  , pathExists := fun _ => true
  , sinceDate := fun _ => strLit "2024-01-01"
  , nowLocal := ⟨2024, 6, 1, 12, 0, 0⟩ }

/-- Witness for C9 at a concrete two-branch listing. -/
theorem branch_active_stale_partition_witness :
    ∃ ba, get_branch_analysis branchEnvW = .ok ba ∧
      ba.total_branches = ba.active_branches.length + ba.stale_branches.length ∧
      (∀ b, b ∈ (rustLines branchListingOut).filterMap parse_branch_info →
        ((b ∈ ba.active_branches ↔
            is_branch_active branchEnvW.nowLocal b.last_commit_date 30 = true) ∧
         (b ∈ ba.stale_branches ↔
            is_branch_active branchEnvW.nowLocal b.last_commit_date 30 = false))) ∧
      (∀ b, b ∈ (rustLines branchListingOut).filterMap parse_branch_info →
        parseNDT (firstTwoTokens b.last_commit_date) = none →
        b ∈ ba.stale_branches) :=
  branch_active_stale_partition branchEnvW branchListingOut rfl

/-! ## C6 -/

/-- C6: when the window-scoped log yields no commits, Commit History
returns an empty recent-commits list and an average of 0 commits per week;
the divisor `max(days/7, 1)` is at least 1 for every window length, so the
average computation never divides by zero. -/
theorem commit_history_empty_window (env : GitEnv) (days : Int) (out : Str)
    (hgit : env.git (historyArgs (env.sinceDate days)) = .ok out)
    (hparse : parse_git_log_with_stats out = []) :
    ∃ ch, get_commit_history env days = .ok ch ∧
      ch.recent_commits = [] ∧
      ch.average_commits_per_week = 0 ∧
      ∀ d : Int, 1 ≤ weeksDivisor d := by
  unfold get_commit_history
  rw [hgit]
  refine ⟨_, rfl, ?_, ?_, fun d => le_max_right _ _⟩
  · show (parse_git_log_with_stats out).take 50 = []
    rw [hparse]
    rfl
  · show ((parse_git_log_with_stats out).length : ℚ) / weeksDivisor days = 0
    rw [hparse]
    simp

/-- Environment whose every query returns empty output, for the C6 witness. -/
def emptyRepoEnv : GitEnv :=
  { git := fun _ => .ok []
  , pathExists := fun _ => true
  , sinceDate := fun _ => strLit "2024-01-01"
  , nowLocal := ⟨2024, 6, 1, 12, 0, 0⟩ }

/-- Witness for C6: an empty log parses to no commits and the history
aspect reports an empty sample and zero average. -/
theorem commit_history_empty_window_witness :
    ∃ ch, get_commit_history emptyRepoEnv 30 = .ok ch ∧
      ch.recent_commits = [] ∧
      ch.average_commits_per_week = 0 ∧
      ∀ d : Int, 1 ≤ weeksDivisor d :=
  commit_history_empty_window emptyRepoEnv 30 [] rfl rfl

/-! ## C10 -/

/-- C10: for a non-empty commit sample the reported median commit size is
the element at index `n / 2` of the ascending-sorted list of per-commit
sizes (insertions + deletions) — the upper middle element when `n` is even,
not the mean of the two middle values — and it is 0 for an empty sample.
The sorted list is characterised abstractly: any ascending-sorted
permutation of the size multiset gives the same answer. -/
theorem median_commit_size_upper_middle (ch : CommitHistory) (l : List Nat)
    (hsort : List.Sorted (fun a b : Nat => a ≤ b) l)
    (hperm : l.Perm (ch.recent_commits.map (fun c => c.insertions + c.deletions))) :
    ∃ dp, analyze_development_patterns ch = .ok dp ∧
      (ch.recent_commits = [] → dp.median_commit_size = 0) ∧
      (ch.recent_commits ≠ [] → dp.median_commit_size = l.getD (l.length / 2) 0) := by
  have hsizes : (ch.recent_commits.foldl devStep ([], [], 0, [])).2.2.2
      = ch.recent_commits.map (fun c => c.insertions + c.deletions) := by
    simpa using devStep_sizes ch.recent_commits ([], [], 0, [])
  refine ⟨devPatternsVal ch, rfl, ?_, ?_⟩
  · intro hnil
    show (devPatternsVal ch).median_commit_size = 0
    simp only [devPatternsVal]
    rw [hsizes, hnil]
    rfl
  · intro hne
    have hl : l = List.insertionSort (fun a b : Nat => a ≤ b)
        (ch.recent_commits.map (fun c => c.insertions + c.deletions)) :=
      List.eq_of_perm_of_sorted (hperm.trans (List.perm_insertionSort _ _).symm)
        hsort (List.sorted_insertionSort _ _)
    have hmapne : ((ch.recent_commits.map (fun c => c.insertions + c.deletions)).isEmpty) = false := by
      simp [hne]
    show (devPatternsVal ch).median_commit_size = l.getD (l.length / 2) 0
    simp only [devPatternsVal]
    rw [hsizes, hmapne, hl]
    rfl

/-- A two-commit history with sizes 5 and 1, for the C10 witness. -/
def twoCommitHistory : CommitHistory :=
  { recent_commits :=
      [{ hash := strLit "h1", author := strLit "A", email := strLit "a@x",
         date := strLit "2024-01-01 10:00:00 +0000", message := strLit "m1",
         files_changed := 1, insertions := 2, deletions := 3 },
       { hash := strLit "h2", author := strLit "A", email := strLit "a@x",
         date := strLit "2024-01-02 10:00:00 +0000", message := strLit "m2",
         files_changed := 1, insertions := 1, deletions := 0 }],
    commits_by_month := [], commits_by_day_of_week := [],
    average_commits_per_week := 0 }

/-- Witness for C10: sizes [5, 1] sort to [1, 5] and the median is the
upper middle element, index 1. -/
theorem median_commit_size_upper_middle_witness :
    ∃ dp, analyze_development_patterns twoCommitHistory = .ok dp ∧
      (twoCommitHistory.recent_commits = [] → dp.median_commit_size = 0) ∧
      (twoCommitHistory.recent_commits ≠ [] →
        dp.median_commit_size = ([1, 5] : List Nat).getD (([1, 5] : List Nat).length / 2) 0) :=
  median_commit_size_upper_middle twoCommitHistory [1, 5] (by decide) (by decide)

/-! ## C2 -/

/-- C2: a log text whose lines are one well-formed header (contains a pipe,
does not start with a digit, at least 5 pipe-separated fields) followed by
three numeric stat lines parses to exactly one commit record whose
`files_changed` is 3 and whose insertions and deletions are the sums of the
corresponding stat fields. -/
theorem parse_one_header_three_stats
    (text hd s1 s2 s3 : Str) (i1 d1 i2 d2 i3 d3 : Nat)
    (hlines : rustLines text = [hd, s1, s2, s3])
    (hhd : isHeaderLine hd = true)
    (hhd5 : 5 ≤ (splitChar '|' hd).length)
    (h1 : isHeaderLine s1 = false) (h1len : 3 ≤ (splitWs s1).length)
    (h1i : parseUsize ((splitWs s1).getD 0 []) = some i1)
    (h1d : parseUsize ((splitWs s1).getD 1 []) = some d1)
    (h2 : isHeaderLine s2 = false) (h2len : 3 ≤ (splitWs s2).length)
    (h2i : parseUsize ((splitWs s2).getD 0 []) = some i2)
    (h2d : parseUsize ((splitWs s2).getD 1 []) = some d2)
    (h3 : isHeaderLine s3 = false) (h3len : 3 ≤ (splitWs s3).length)
    (h3i : parseUsize ((splitWs s3).getD 0 []) = some i3)
    (h3d : parseUsize ((splitWs s3).getD 1 []) = some d3) :
    parse_git_log_with_stats text =
      [{ headerCommit hd with
         files_changed := 3, insertions := i1 + i2 + i3, deletions := d1 + d2 + d3 }] := by
  unfold parse_git_log_with_stats
  rw [hlines]
  unfold parseLogLines
  rw [List.foldl_cons, logStep_header ⟨[], none⟩ hd hhd hhd5]
  rw [List.foldl_cons, logStep_stat _ _ _ _ _ rfl h1 h1len h1i h1d]
  rw [List.foldl_cons, logStep_stat _ _ _ _ _ rfl h2 h2len h2i h2d]
  rw [List.foldl_cons, logStep_stat _ _ _ _ _ rfl h3 h3len h3i h3d]
  simp [headerCommit]

/-- A synthetic four-line log block, for the C2 witness. -/
def logTextW : Str :=
  strLit "abc|Alice|a@x|2024-01-01 10:00:00 +0000|msg\n1\t2\tf.rs\n3\t4\tg.rs\n5\t6\th.rs"

/-- Witness for C2 on the concrete block: one record, 3 files, sums 9/12. -/
theorem parse_one_header_three_stats_witness :
    parse_git_log_with_stats logTextW =
      [{ headerCommit (strLit "abc|Alice|a@x|2024-01-01 10:00:00 +0000|msg") with
         files_changed := 3, insertions := 1 + 3 + 5, deletions := 2 + 4 + 6 }] :=
  parse_one_header_three_stats logTextW
    (strLit "abc|Alice|a@x|2024-01-01 10:00:00 +0000|msg")
    (strLit "1\t2\tf.rs") (strLit "3\t4\tg.rs") (strLit "5\t6\th.rs")
    1 2 3 4 5 6
    (by decide) (by decide) (by decide)
    (by decide) (by decide) (by decide) (by decide)
    (by decide) (by decide) (by decide) (by decide)
    (by decide) (by decide) (by decide) (by decide)

/-! ## C3 -/

/-- A churn log in which 21 distinct paths are each changed 6 times. -/
def churnCxOut : Str :=
  strLit (String.join (((List.range 21).map (fun i =>
    String.join (List.replicate 6 ("1\t1\tp" ++ toString i ++ "\n"))))))

/-- Environment serving `churnCxOut` for the churn query. -/
def churnCxEnv : GitEnv :=
  { git := fun args =>
      if args = churnArgs (strLit "2024-01-01") then .ok churnCxOut else .ok []
  , pathExists := fun _ => true
  , sinceDate := fun _ => strLit "2024-01-01"
  , nowLocal := ⟨2024, 6, 1, 12, 0, 0⟩ }

set_option maxRecDepth 200000 in
/-- Counterexample to C3 as stated: with 21 files each changed 6 times, the
path `p20` accumulates `times_changed = 6 > 5` in the per-path accumulation
yet is absent from the hotspots list, because hotspots are drawn only from
the 20 files kept after ranking. -/
theorem churn_hotspots_counterexample :
    lookupAssoc (churnAccum (rustLines churnCxOut)) (strLit "p20") = some (6, 6, 6) ∧
    (Except.toOption (get_code_churn churnCxEnv 30)).map
      (fun r => decide ((strLit "p20") ∈ r.hotspots)) = some false := by
  constructor
  · decide
  · decide

/-- C3 (amended): the hotspots list contains exactly those file paths among
the top-20 ranked `most_changed_files` whose `times_changed` exceeds 5;
files outside the kept top 20 are not flagged even when their accumulated
count exceeds 5. -/
theorem churn_hotspots_top20 (env : GitEnv) (days : Int) (out : Str)
    (hgit : env.git (churnArgs (env.sinceDate days)) = .ok out) :
    ∃ r, get_code_churn env days = .ok r ∧
      r.most_changed_files.length ≤ 20 ∧
      r.hotspots = (r.most_changed_files.filter
        (fun f => 5 < f.times_changed)).map (fun f => f.path) ∧
      ∀ p, p ∈ r.hotspots ↔
        ∃ f, f ∈ r.most_changed_files ∧ f.path = p ∧ 5 < f.times_changed := by
  unfold get_code_churn
  rw [hgit]
  refine ⟨_, rfl, ?_, rfl, ?_⟩
  · simp only [List.length_map]
    exact List.length_take_le 20 _
  · intro p
    simp only [List.mem_map, List.mem_filter, decide_eq_true_eq]
    constructor
    · rintro ⟨f, ⟨hf, ht⟩, hp⟩
      exact ⟨f, hf, hp, ht⟩
    · rintro ⟨f, hf, hp, ht⟩
      exact ⟨f, ⟨hf, ht⟩, hp⟩

/-- Witness for the amended C3 at the 21-file churn input. -/
theorem churn_hotspots_top20_witness :
    ∃ r, get_code_churn churnCxEnv 30 = .ok r ∧
      r.most_changed_files.length ≤ 20 ∧
      r.hotspots = (r.most_changed_files.filter
        (fun f => 5 < f.times_changed)).map (fun f => f.path) ∧
      ∀ p, p ∈ r.hotspots ↔
        ∃ f, f ∈ r.most_changed_files ∧ f.path = p ∧ 5 < f.times_changed :=
  churn_hotspots_top20 churnCxEnv 30 churnCxOut rfl

/-! ## C5 -/

/-- The keyword-grep output line for the subject
`Breaking: redesign auth flow`. -/
def archSubjectLine : Str :=
  strLit "h1|2024-05-01 10:00:00 +0200|Alice|Breaking: redesign auth flow"

/-- Environment in which the case-insensitive grep for `breaking` and for
`redesign` each return the commit with subject
`Breaking: redesign auth flow` and every other keyword matches nothing
(that subject contains no other keyword of the fixed set). -/
def archCxEnv : GitEnv :=
  { git := fun args =>
      if args = archArgs (strLit "2024-01-01") (strLit "breaking") then .ok archSubjectLine
      else if args = archArgs (strLit "2024-01-01") (strLit "redesign") then .ok archSubjectLine
      else .ok []
  , pathExists := fun _ => true
  , sinceDate := fun _ => strLit "2024-01-01"
  , nowLocal := ⟨2024, 6, 1, 12, 0, 0⟩ }

set_option maxRecDepth 200000 in
/-- C5: on a commit whose subject is `Breaking: redesign auth flow`,
Architectural Decision Detection yields exactly two records — one from the
`breaking` keyword pass and one from the `redesign` pass, in that pass
order, not de-duplicated — and each record's impact tier is `high` because
the lower-cased subject contains `breaking`. -/
theorem arch_decisions_breaking_redesign :
    find_architectural_decisions archCxEnv 30 = .ok
      [{ commit_hash := strLit "h1", date := strLit "2024-05-01 10:00:00 +0200",
         author := strLit "Alice", message := strLit "Breaking: redesign auth flow",
         decision_type := strLit "breaking", impact := strLit "high" },
       { commit_hash := strLit "h1", date := strLit "2024-05-01 10:00:00 +0200",
         author := strLit "Alice", message := strLit "Breaking: redesign auth flow",
         decision_type := strLit "redesign", impact := strLit "high" }] := by
  rfl

/-! ## C4 -/

/-- An `isOk` result is an `ok` value. -/
theorem exists_ok_of_isOk {α : Type} (x : Except Str α) (h : x.isOk = true) :
    ∃ a, x = .ok a := by
  cases x with
  | error e => simp [Except.isOk, Except.toBool] at h
  | ok a => exact ⟨a, rfl⟩

/-- Keys of the map after an `entry`-style update: the key is appended when
absent and the key set is unchanged when present. -/
theorem keys_updAssoc {κ α : Type} [DecidableEq κ]
    (m : List (κ × α)) (k : κ) (init : α) (f : α → α) :
    (updAssoc m k init f).map Prod.fst =
      if k ∈ m.map Prod.fst then m.map Prod.fst else m.map Prod.fst ++ [k] := by
  induction m with
  | nil => simp [updAssoc]
  | cons p m ih =>
    obtain ⟨k0, v⟩ := p
    by_cases h : k0 = k
    · subst h
      simp [updAssoc]
    · by_cases hk : k ∈ m.map Prod.fst <;>
        simp [updAssoc, h, ih, hk, Ne.symm h]

/-- Membership in the key set after an `entry`-style update. -/
theorem mem_keys_updAssoc {κ α : Type} [DecidableEq κ]
    (m : List (κ × α)) (k a : κ) (init : α) (f : α → α) :
    a ∈ (updAssoc m k init f).map Prod.fst ↔ a ∈ m.map Prod.fst ∨ a = k := by
  rw [keys_updAssoc]
  by_cases hk : k ∈ m.map Prod.fst
  · simp only [hk, if_true]
    constructor
    · exact Or.inl
    · rintro (h | rfl)
      · exact h
      · exact hk
  · simp [hk]

/-- `entry`-style updates preserve key distinctness. -/
theorem nodup_keys_updAssoc {κ α : Type} [DecidableEq κ]
    (m : List (κ × α)) (k : κ) (init : α) (f : α → α)
    (h : (m.map Prod.fst).Nodup) :
    ((updAssoc m k init f).map Prod.fst).Nodup := by
  rw [keys_updAssoc]
  by_cases hk : k ∈ m.map Prod.fst
  · simpa [hk]
  · simp only [hk, if_false]
    rw [List.nodup_append]
    exact ⟨h, List.nodup_singleton k,
      fun a ha hb => hk ((List.mem_singleton.1 hb) ▸ ha)⟩

/-- A key is present exactly when its lookup succeeds. -/
theorem mem_keys_iff_lookup {κ α : Type} [DecidableEq κ]
    (m : List (κ × α)) (k : κ) :
    k ∈ m.map Prod.fst ↔ ∃ v, lookupAssoc m k = some v := by
  induction m with
  | nil => simp [lookupAssoc]
  | cons p m ih =>
    obtain ⟨k0, v⟩ := p
    by_cases h : k0 = k
    · subst h
      simp [lookupAssoc]
    · simp [lookupAssoc, h, Ne.symm h, ih]

/-- If a key is absent from an email-keyed map, the produced record list
contains no record carrying that email. -/
theorem filterMap_filter_nil_of_notmem
    (m : List (Str × Nat)) (f : Str × Nat → Option ContributorInsight) (e : Str)
    (hf : ∀ p r, f p = some r → r.email = p.1)
    (hnot : e ∉ m.map Prod.fst) :
    (m.filterMap f).filter (fun r => decide (r.email = e)) = [] := by
  induction m with
  | nil => rfl
  | cons p m ih =>
    obtain ⟨k, c⟩ := p
    have hke : k ≠ e := by
      intro h
      exact hnot (by simp [h])
    have hnot2 : e ∉ m.map Prod.fst := fun h => hnot (by simp [h])
    cases hfk : f (k, c) with
    | none => simpa [List.filterMap_cons, hfk] using ih hnot2
    | some r =>
      have hre : r.email = k := hf _ _ hfk
      simpa [List.filterMap_cons, hfk, List.filter_cons, hre, hke] using ih hnot2

/-- Counting records by email in the list produced from an email-keyed map
with distinct keys: at most one record per email, exactly one when the key
is present and its detail lookup succeeds. -/
theorem filterMap_count_key
    (m : List (Str × Nat)) (f : Str × Nat → Option ContributorInsight) (e : Str)
    (hf : ∀ p r, f p = some r → r.email = p.1)
    (hnodup : (m.map Prod.fst).Nodup) :
    ((m.filterMap f).filter (fun r => decide (r.email = e))).length =
      (match lookupAssoc m e with
       | some c => if (f (e, c)).isSome then 1 else 0
       | none => 0) := by
  induction m with
  | nil => rfl
  | cons p m ih =>
    obtain ⟨k, c⟩ := p
    have hnd : k ∉ m.map Prod.fst ∧ (m.map Prod.fst).Nodup := by
      simpa using hnodup
    by_cases hk : k = e
    · subst hk
      have h0 : (m.filterMap f).filter (fun r => decide (r.email = k)) = [] :=
        filterMap_filter_nil_of_notmem m f k hf hnd.1
      cases hfk : f (k, c) with
      | none => simp [List.filterMap_cons, hfk, lookupAssoc, h0]
      | some r =>
        have hre : r.email = k := hf _ _ hfk
        simp [List.filterMap_cons, hfk, lookupAssoc, List.filter_cons, hre, h0]
    · cases hfk : f (k, c) with
      | none =>
        simpa [List.filterMap_cons, hfk, lookupAssoc, hk] using ih hnd.2
      | some r =>
        have hre : r.email = k := hf _ _ hfk
        simpa [List.filterMap_cons, hfk, lookupAssoc, hk, List.filter_cons, hre]
          using ih hnd.2

/-- One pass-1 step never removes keys from the counts map. -/
theorem keys_mono_contribStep (ms : List (Str × Nat) × List (Str × Str))
    (line : Str) (a : Str) (h : a ∈ ms.1.map Prod.fst) :
    a ∈ (contribStep ms line).1.map Prod.fst := by
  unfold contribStep
  by_cases hp : 2 ≤ (splitChar '|' line).length
  · simpa [hp] using (mem_keys_updAssoc ms.1 _ a 0 (· + 1)).2 (Or.inl h)
  · simpa [hp] using h

/-- The pass-1 fold never removes keys from the counts map. -/
theorem keys_mono_contribFold (ls : List Str)
    (ms : List (Str × Nat) × List (Str × Str)) (a : Str)
    (h : a ∈ ms.1.map Prod.fst) :
    a ∈ (ls.foldl contribStep ms).1.map Prod.fst := by
  induction ls generalizing ms with
  | nil => simpa using h
  | cons l ls ih => exact ih _ (keys_mono_contribStep ms l a h)

/-- A well-formed log line puts its (trimmed) email among the keys of the
counts map built by the pass-1 fold. -/
theorem key_present_of_line (ls : List Str)
    (ms : List (Str × Nat) × List (Str × Str)) (l e : Str)
    (hl : l ∈ ls) (hp : 2 ≤ (splitChar '|' l).length)
    (he : trimStr ((splitChar '|' l).getD 1 []) = e) :
    e ∈ (ls.foldl contribStep ms).1.map Prod.fst := by
  induction ls generalizing ms with
  | nil => cases hl
  | cons a ls ih =>
    rw [List.foldl_cons]
    rcases List.mem_cons.1 hl with rfl | hl2
    · refine keys_mono_contribFold ls _ e ?_
      unfold contribStep
      simpa [hp] using (mem_keys_updAssoc ms.1 _ e 0 (· + 1)).2 (Or.inr he.symm)
    · exact ih _ hl2

/-- The pass-1 fold keeps distinct keys in the counts map. -/
theorem nodup_contribFold (ls : List Str)
    (ms : List (Str × Nat) × List (Str × Str))
    (h : (ms.1.map Prod.fst).Nodup) :
    ((ls.foldl contribStep ms).1.map Prod.fst).Nodup := by
  induction ls generalizing ms with
  | nil => simpa using h
  | cons l ls ih =>
    refine ih _ ?_
    unfold contribStep
    by_cases hp : 2 ≤ (splitChar '|' l).length
    · simpa [hp] using nodup_keys_updAssoc ms.1 _ 0 (· + 1) h
    · simpa [hp] using h

/-- The counts map and the names map of pass 1 always share the same key
sequence (both are updated with the same email key on every line). -/
theorem keys_eq_contribFold (ls : List Str)
    (ms : List (Str × Nat) × List (Str × Str))
    (h : ms.1.map Prod.fst = ms.2.map Prod.fst) :
    (ls.foldl contribStep ms).1.map Prod.fst
      = (ls.foldl contribStep ms).2.map Prod.fst := by
  induction ls generalizing ms with
  | nil => simpa using h
  | cons l ls ih =>
    refine ih _ ?_
    unfold contribStep
    by_cases hp : 2 ≤ (splitChar '|' l).length
    · simp only [hp, if_true]
      rw [keys_updAssoc, keys_updAssoc, h]
    · simpa [hp] using h

/-- A contributor record produced by the detail pass carries the email it
was keyed by. -/
theorem analyze_contributor_email (env : GitEnv) (name email : Str)
    (c : Nat) (days : Int) (r : ContributorInsight)
    (h : analyze_contributor env name email c days = some r) :
    r.email = email := by
  unfold analyze_contributor at h
  cases hg : env.git (contribStatsArgs email (env.sinceDate days)) with
  | error e => rw [hg] at h; cases h
  | ok s =>
    rw [hg] at h
    cases h
    rfl

/-- When the detail query succeeds the contributor is kept. -/
theorem analyze_contributor_isSome (env : GitEnv) (name email : Str)
    (c : Nat) (days : Int)
    (h : (env.git (contribStatsArgs email (env.sinceDate days))).isOk = true) :
    (analyze_contributor env name email c days).isSome = true := by
  obtain ⟨s, hs⟩ := exists_ok_of_isOk _ h
  unfold analyze_contributor
  rw [hs]
  rfl

/-- C4: when two (or more) well-formed contributor-log lines carry
different display names but the same email, and that contributor's detail
query succeeds, Contributor Insights produces exactly one record whose
email is that address: aggregation is keyed by email, never by display
name. -/
theorem contributor_insights_keyed_by_email
    (env : GitEnv) (days : Int) (out : Str) (l1 l2 n1 n2 e : Str)
    (hgit : env.git (insightArgs (env.sinceDate days)) = .ok out)
    (h1 : l1 ∈ rustLines out) (h2 : l2 ∈ rustLines out)
    (h1p : 2 ≤ (splitChar '|' l1).length) (h2p : 2 ≤ (splitChar '|' l2).length)
    (h1n : trimStr ((splitChar '|' l1).getD 0 []) = n1)
    (h1e : trimStr ((splitChar '|' l1).getD 1 []) = e)
    (h2n : trimStr ((splitChar '|' l2).getD 0 []) = n2)
    (h2e : trimStr ((splitChar '|' l2).getD 1 []) = e)
    (hne : n1 ≠ n2)
    (hstats : (env.git (contribStatsArgs e (env.sinceDate days))).isOk = true) :
    ∃ res, get_contributor_insights env days = .ok res ∧
      (res.filter (fun r => decide (r.email = e))).length = 1 := by
  unfold get_contributor_insights
  rw [hgit]
  refine ⟨_, rfl, ?_⟩
  have hf : ∀ (p : Str × Nat) (r : ContributorInsight),
      (match lookupAssoc (contribMaps (rustLines out)).2 p.1 with
       | some name => analyze_contributor env name p.1 p.2 days
       | none => none) = some r → r.email = p.1 := by
    intro p r h
    cases hn : lookupAssoc (contribMaps (rustLines out)).2 p.1 with
    | none => rw [hn] at h; cases h
    | some name =>
      rw [hn] at h
      exact analyze_contributor_email env name p.1 p.2 days r h
  have hnodup : ((contribMaps (rustLines out)).1.map Prod.fst).Nodup :=
    nodup_contribFold _ _ (by simp)
  have hmem : e ∈ (contribMaps (rustLines out)).1.map Prod.fst :=
    key_present_of_line _ _ l1 e h1 h1p h1e
  obtain ⟨c, hc⟩ := (mem_keys_iff_lookup _ e).1 hmem
  have hkeys : (contribMaps (rustLines out)).1.map Prod.fst
      = (contribMaps (rustLines out)).2.map Prod.fst :=
    keys_eq_contribFold _ _ rfl
  obtain ⟨name, hname⟩ := (mem_keys_iff_lookup _ e).1 (hkeys ▸ hmem)
  rw [filterMap_count_key _ _ e hf hnodup, hc]
  have hsome : (match lookupAssoc (contribMaps (rustLines out)).2 (e, c).1 with
      | some name => analyze_contributor env name (e, c).1 (e, c).2 days
      | none => none).isSome = true := by
    show (match lookupAssoc (contribMaps (rustLines out)).2 e with
      | some name => analyze_contributor env name e c days
      | none => none).isSome = true
    rw [hname]
    exact analyze_contributor_isSome env name e c days hstats
  simp [hsome]

/-- Contributor log with two display names sharing one email, for the C4
witness. -/
def contribOutW : Str := strLit "Alice|a@x\nAl|a@x"

/-- Environment serving `contribOutW` for the contributor pass-1 query and
empty (successful) output for everything else. -/
def contribEnvW : GitEnv :=
  { git := fun args =>
      if args = insightArgs (strLit "2024-01-01") then .ok contribOutW else .ok []
  , pathExists := fun _ => true
  , sinceDate := fun _ => strLit "2024-01-01"
  , nowLocal := ⟨2024, 6, 1, 12, 0, 0⟩ }

/-- Witness for C4: `Alice|a@x` and `Al|a@x` collapse to exactly one record
keyed by `a@x`. -/
theorem contributor_insights_keyed_by_email_witness :
    ∃ res, get_contributor_insights contribEnvW 30 = .ok res ∧
      (res.filter (fun r => decide (r.email = strLit "a@x"))).length = 1 :=
  contributor_insights_keyed_by_email contribEnvW 30 contribOutW
    (strLit "Alice|a@x") (strLit "Al|a@x")
    (strLit "Alice") (strLit "Al") (strLit "a@x")
    rfl (by decide) (by decide) (by decide) (by decide)
    (by decide) (by decide) (by decide) (by decide) (by decide) rfl

/-! ## C1 -/

/-- C1: once the path checks pass, the orchestrator returns an aggregate
report exactly when all seven querying aspect analyzers succeed (the
development-pattern pass never fails); when a required aspect fails while
the aspects unwrapped before it succeed, the whole analysis returns that
aspect's error verbatim — no partial aggregate is ever produced; and the
remote-URL lookup is the one optional call: its failure yields
`remote_url = none` inside a successful repository-info result instead of
an error. -/
theorem analyze_git_repository_all_or_nothing
    (env : GitEnv) (repo_path : Str) (days : Int)
    (hpath : env.pathExists repo_path = true)
    (hgitdir : env.pathExists (repo_path ++ strLit "/.git") = true) :
    ((analyze_git_repository env repo_path days).isOk = true ↔
      ((get_repository_info env repo_path).isOk = true ∧
       (get_commit_history env days).isOk = true ∧
       (get_branch_analysis env).isOk = true ∧
       (get_contributor_insights env days).isOk = true ∧
       (get_code_churn env days).isOk = true ∧
       (find_architectural_decisions env days).isOk = true ∧
       (analyze_release_patterns env).isOk = true)) ∧
    (∀ e, get_commit_history env days = .error e →
      analyze_git_repository env repo_path days = .error e) ∧
    (∀ ch e, get_commit_history env days = .ok ch →
      get_code_churn env days = .error e →
      analyze_git_repository env repo_path days = .error e) ∧
    (∀ ch cc e, get_commit_history env days = .ok ch →
      get_code_churn env days = .ok cc →
      find_architectural_decisions env days = .error e →
      analyze_git_repository env repo_path days = .error e) ∧
    (∀ ch cc ad e, get_commit_history env days = .ok ch →
      get_code_churn env days = .ok cc →
      find_architectural_decisions env days = .ok ad →
      analyze_release_patterns env = .error e →
      analyze_git_repository env repo_path days = .error e) ∧
    (∀ ch cc ad rp e, get_commit_history env days = .ok ch →
      get_code_churn env days = .ok cc →
      find_architectural_decisions env days = .ok ad →
      analyze_release_patterns env = .ok rp →
      get_repository_info env repo_path = .error e →
      analyze_git_repository env repo_path days = .error e) ∧
    (∀ ch cc ad rp ri e, get_commit_history env days = .ok ch →
      get_code_churn env days = .ok cc →
      find_architectural_decisions env days = .ok ad →
      analyze_release_patterns env = .ok rp →
      get_repository_info env repo_path = .ok ri →
      get_branch_analysis env = .error e →
      analyze_git_repository env repo_path days = .error e) ∧
    (∀ ch cc ad rp ri ba e, get_commit_history env days = .ok ch →
      get_code_churn env days = .ok cc →
      find_architectural_decisions env days = .ok ad →
      analyze_release_patterns env = .ok rp →
      get_repository_info env repo_path = .ok ri →
      get_branch_analysis env = .ok ba →
      get_contributor_insights env days = .error e →
      analyze_git_repository env repo_path days = .error e) ∧
    (∀ ce r, env.git remoteUrlArgs = .error ce →
      get_repository_info env repo_path = .ok r → r.remote_url = none) := by
  refine ⟨?_, ?_, ?_, ?_, ?_, ?_, ?_, ?_, ?_⟩
  · unfold analyze_git_repository
    simp only [hpath, hgitdir, Bool.not_true, Bool.false_eq_true, if_false]
    cases h1 : get_commit_history env days <;>
      cases h2 : get_code_churn env days <;>
        cases h3 : find_architectural_decisions env days <;>
          cases h4 : analyze_release_patterns env <;>
            cases h5 : get_repository_info env repo_path <;>
              cases h6 : get_branch_analysis env <;>
                cases h7 : get_contributor_insights env days <;>
                  simp_all [analyze_development_patterns, Except.isOk, Except.toBool]
  · intro e h1
    unfold analyze_git_repository
    simp only [hpath, hgitdir, Bool.not_true, Bool.false_eq_true, if_false, h1]
  · intro ch e h1 h2
    unfold analyze_git_repository
    simp only [hpath, hgitdir, Bool.not_true, Bool.false_eq_true, if_false, h1, h2]
  · intro ch cc e h1 h2 h3
    unfold analyze_git_repository
    simp only [hpath, hgitdir, Bool.not_true, Bool.false_eq_true, if_false, h1, h2,
      analyze_development_patterns, h3]
  · intro ch cc ad e h1 h2 h3 h4
    unfold analyze_git_repository
    simp only [hpath, hgitdir, Bool.not_true, Bool.false_eq_true, if_false, h1, h2,
      analyze_development_patterns, h3, h4]
  · intro ch cc ad rp e h1 h2 h3 h4 h5
    unfold analyze_git_repository
    simp only [hpath, hgitdir, Bool.not_true, Bool.false_eq_true, if_false, h1, h2,
      analyze_development_patterns, h3, h4, h5]
  · intro ch cc ad rp ri e h1 h2 h3 h4 h5 h6
    unfold analyze_git_repository
    simp only [hpath, hgitdir, Bool.not_true, Bool.false_eq_true, if_false, h1, h2,
      analyze_development_patterns, h3, h4, h5, h6]
  · intro ch cc ad rp ri ba e h1 h2 h3 h4 h5 h6 h7
    unfold analyze_git_repository
    simp only [hpath, hgitdir, Bool.not_true, Bool.false_eq_true, if_false, h1, h2,
      analyze_development_patterns, h3, h4, h5, h6, h7]
  · intro ce r hcfg hok
    unfold get_repository_info at hok
    rw [hcfg] at hok
    cases hg1 : env.git revParseArgs with
    | error e1 => rw [hg1] at hok; exact Except.noConfusion hok
    | ok db =>
    simp only [hg1] at hok
    cases hg2 : env.git revListCountArgs with
    | error e2 => rw [hg2] at hok; exact Except.noConfusion hok
    | ok cnt =>
    simp only [hg2] at hok
    cases hg3 : parseUsize (trimStr cnt) with
    | none => rw [hg3] at hok; exact Except.noConfusion hok
    | some tc =>
    simp only [hg3] at hok
    cases hg4 : env.git firstCommitArgs with
    | error e4 => rw [hg4] at hok; exact Except.noConfusion hok
    | ok fc =>
    simp only [hg4] at hok
    cases hg5 : env.git lastCommitArgs with
    | error e5 => rw [hg5] at hok; exact Except.noConfusion hok
    | ok lc =>
    simp only [hg5] at hok
    cases hg6 : parseNDT (firstTwoTokens (trimStr fc)) with
    | none => rw [hg6] at hok; exact Except.noConfusion hok
    | some fd =>
    simp only [hg6] at hok
    cases hg7 : parseNDT (firstTwoTokens (trimStr lc)) with
    | none => rw [hg7] at hok; exact Except.noConfusion hok
    | some ld =>
    simp only [hg7] at hok
    cases hok
    rfl

/-- Environment on which every aspect succeeds while the remote-URL lookup
fails, for the C1 witness: the analysis still returns an aggregate report. -/
def fullEnvC1 : GitEnv :=
  { git := fun args =>
      if args = remoteUrlArgs then .error (strLit "no remote configured")
      else if args = revListCountArgs then .ok (strLit "5")
      else if args = firstCommitArgs then .ok (strLit "2023-01-01 00:00:00 +0000")
      else if args = lastCommitArgs then .ok (strLit "2024-02-03 12:30:15 +0000")
      else .ok []
  , pathExists := fun _ => true
  , sinceDate := fun _ => strLit "2024-01-01"
  , nowLocal := ⟨2024, 6, 1, 12, 0, 0⟩ }

set_option maxRecDepth 200000 in
/-- Witness for C1: with every aspect query answered (and the optional
remote-URL lookup failing), the orchestrator produces an aggregate report. -/
theorem analyze_git_repository_all_or_nothing_witness :
    (analyze_git_repository fullEnvC1 (strLit "/repo") 30).isOk = true :=
  (analyze_git_repository_all_or_nothing fullEnvC1 (strLit "/repo") 30 rfl rfl).1.mpr
    ⟨by decide, by decide, by decide, by decide, by decide, by decide, by decide⟩
